import Mathlib

set_option maxRecDepth 8000

/- Verification development for the ETM student-success preprocessing and
sanitization pipeline. The definitions below are shallow embeddings of the
core routines of src/analysis/sanitizer.py, src/analysis/utils.py,
src/etm_preprocessing/features.py, src/etm_preprocessing/gpa_features.py and
src/etm_preprocessing/cli.py. Machine floats are modelled as rationals,
pandas missing values as Option, and dataframe columns as lists of cells. -/

namespace Etm

/-- One raw dataframe cell, as the sanitizer sees a column after the upstream
normalization steps: the outer none models a missing value (NaN), some none
models a non-missing value that pandas to_numeric coerces to NaN (free text),
and some (some q) models a numeric value q. -/
abbrev Cell : Type := Option (Option ℚ)

/-- Numeric coercion of a cell, pandas to_numeric with coercion of errors:
missing stays missing and non-numeric text becomes missing. -/
def toNumeric (c : Cell) : Option ℚ := c.join

/-- Count of non-missing entries of a series, pandas notna sum. -/
def countSome (l : List (Option ℚ)) : Nat := l.countP (·.isSome)

/-- Lowercase a string character by character, python str.lower on the ASCII
range that column names use. -/
def lowerStr (s : String) : List Char := s.data.map Char.toLower

/-- The four plain-substring deny patterns of sanitizer.py line 16. The fifth
pattern is suffix-anchored and is handled separately in is_name_leaky. -/
def DENY_SUBSTRINGS : List String := ["graduating", "degree", "me_bs", "outcome"]

/-- Embeds is_name_leaky (sanitizer.py lines 33-35): regex search of each deny
pattern over the lowercased column name; four patterns are plain substrings
and the fifth matches the suffix _is_missing. -/
def is_name_leaky (c : String) : Bool :=
  (DENY_SUBSTRINGS.any fun p => decide (p.data <:+: lowerStr c)) ||
    decide ("_is_missing".data <:+ lowerStr c)

/-- Missingness fraction of a column, the mean of isna in sanitizer.py line
128. For an empty column pandas yields NaN, which compares with the 0.60
threshold exactly as the 0 produced here does. -/
def missFrac (x : List Cell) : ℚ := ((x.countP (·.isNone) : ℕ) : ℚ) / ((x.length : ℕ) : ℚ)

/-- Embeds ensure_binary (analysis/utils.py lines 32-44) on a numeric series,
which is the dtype of the outcome series the sanitizer passes in (it was
already produced by ensure_outcome_col). The source compares the series with 0
and casts the boolean result to float; a comparison with NaN is False, so a
missing entry becomes 0.0 rather than staying missing. -/
def ensure_binary_num (y : List (Option ℚ)) : List (Option ℚ) :=
  y.map fun v => some (match v with
    | some q => if 0 < q then (1 : ℚ) else 0
    | none => 0)

/-- Positional pairing of two series on the rows where both are non-missing,
the common mask of sanitizer.py line 47. -/
def commonPairs (xn yb : List (Option ℚ)) : List (ℚ × ℚ) :=
  (xn.zip yb).filterMap fun p =>
    match p with
    | (some a, some b) => some (a, b)
    | _ => none

/-- Fraction of the common rows on which the column equals the outcome, and
fraction on which it equals one minus the outcome; the larger of the two
(sanitizer.py lines 50-52). The tolerance of np.isclose is modelled as exact
equality of rationals, which agrees with it on the 0-or-1 valued data this
check is aimed at. An empty list yields 0 because rational division by the
zero length gives 0. -/
def agreeMax (common : List (ℚ × ℚ)) : ℚ :=
  max (((common.countP fun p => decide (p.1 = p.2) : ℕ) : ℚ) / ((common.length : ℕ) : ℚ))
    (((common.countP fun p => decide (p.1 = 1 - p.2) : ℕ) : ℚ) / ((common.length : ℕ) : ℚ))

/-- Embeds near_equal_to_outcome (sanitizer.py lines 41-52). The argument x is
the raw column and y the outcome series exactly as main passes them. Rows pair
up positionally, modelling the shared dataframe index. -/
def near_equal_to_outcome (x : List Cell) (y : List (Option ℚ)) : Bool :=
  if countSome (x.map toNumeric) < 100 || countSome y < 100 then false
  else if (commonPairs (x.map toNumeric) (ensure_binary_num y)).length = 0 then false
  else decide ((985 : ℚ) / 1000 ≤ agreeMax (commonPairs (x.map toNumeric) (ensure_binary_num y)))

/-- Verdict of the sanitizer for a single column, the reason field of the
SanitizationVerdict data model. -/
inductive Verdict where
  | name_denied
  | missingness_exceeded
  | near_equivalent_to_outcome
  | ok
  deriving DecidableEq, Repr

/-- Per-column verdict of the sanitizer main loop (sanitizer.py lines
119-136): deny-name check first, then the strict missingness threshold, then
the near-equivalence check. The outcome column itself never reaches this
function because the loop skips it. -/
def sanitize_verdict (c : String) (x : List Cell) (y : List (Option ℚ)) : Verdict :=
  if is_name_leaky c then .name_denied
  else if (3 : ℚ) / 5 < missFrac x then .missingness_exceeded
  else if near_equal_to_outcome x y then .near_equivalent_to_outcome
  else .ok

/-- Binary coercion of the outcome as the specification words describe it: a
non-missing value becomes 0 or 1 and a missing value stays missing. -/
def specBin (y : List (Option ℚ)) : List (Option ℚ) :=
  y.map (Option.map fun q => if 0 < q then (1 : ℚ) else 0)

/-- Near-equivalence stage of the staged reference procedure of claim C1,
translated from the claim words, not from the code: coerce the column to
numeric and the outcome to binary, require at least 100 non-missing rows on
each side, and compare the agreement fractions over the rows on which both
coerced series are non-missing against the 0.985 threshold. -/
def spec_near (x : List Cell) (y : List (Option ℚ)) : Bool :=
  if 100 ≤ countSome (x.map toNumeric) ∧ 100 ≤ countSome (specBin y) then
    decide ((985 : ℚ) / 1000 ≤ agreeMax (commonPairs (x.map toNumeric) (specBin y)))
  else false

/-- Staged reference procedure of claim C1, translated from the claim words:
name denylist, then missingness strictly above 0.60, then the near-equivalence
check of spec_near, otherwise the column is kept. -/
def spec_verdict (c : String) (x : List Cell) (y : List (Option ℚ)) : Verdict :=
  if is_name_leaky c then .name_denied
  else if (3 : ℚ) / 5 < missFrac x then .missingness_exceeded
  else if spec_near x y then .near_equivalent_to_outcome
  else .ok

theorem countSome_specBin (y : List (Option ℚ)) : countSome (specBin y) = countSome y := by
  unfold countSome specBin
  rw [List.countP_map]
  congr 1
  funext v
  cases v <;> rfl

theorem agreeMax_nil : agreeMax [] = 0 := by
  unfold agreeMax
  norm_num

theorem near_equal_eq_spec_near (x : List Cell) (y : List (Option ℚ))
    (hy : ∀ v ∈ y, v.isSome) : near_equal_to_outcome x y = spec_near x y := by
  have hyb : ensure_binary_num y = specBin y := by
    unfold ensure_binary_num specBin
    apply List.map_congr_left
    intro v hv
    rcases v with _ | q
    · exact absurd (hy _ hv) (by simp)
    · rfl
  unfold near_equal_to_outcome spec_near
  rw [hyb, countSome_specBin]
  by_cases hg : countSome (x.map toNumeric) < 100 ∨ countSome y < 100
  · have hg' : ¬ (100 ≤ countSome (x.map toNumeric) ∧ 100 ≤ countSome y) := by omega
    have hgb : (countSome (x.map toNumeric) < 100 || countSome y < 100) = true := by
      simpa [Bool.or_eq_true_iff, decide_eq_true_iff] using hg
    simp [hgb, hg']
  · push_neg at hg
    have hg' : 100 ≤ countSome (x.map toNumeric) ∧ 100 ≤ countSome y := ⟨hg.1, hg.2⟩
    have hgb : (countSome (x.map toNumeric) < 100 || countSome y < 100) = false := by
      simp [Bool.or_eq_false_iff]
      omega
    simp only [hgb, Bool.false_eq_true, if_false, if_pos hg']
    by_cases hc : (commonPairs (x.map toNumeric) (specBin y)).length = 0
    · have hnil := List.length_eq_zero.mp hc
      simp [hc, hnil, agreeMax_nil]
    · simp [hc]

theorem sanitize_verdict_eq_spec (c : String) (x : List Cell) (y : List (Option ℚ))
    (hy : ∀ v ∈ y, v.isSome) : sanitize_verdict c x y = spec_verdict c x y := by
  unfold sanitize_verdict spec_verdict
  rw [near_equal_eq_spec_near x y hy]

/-- Column of 200 numeric ones, used to exhibit the divergence of claim C1. -/
def xAllOnes200 : List Cell := List.replicate 200 (some (some 1))

/-- Outcome series of 100 ones followed by 100 missing entries. -/
def yHalfMissing : List (Option ℚ) := List.replicate 100 (some 1) ++ List.replicate 100 none

/-- Column with exactly 60 percent missing entries over 1000 rows. -/
def xMiss60 : List Cell := List.replicate 600 none ++ List.replicate 400 (some (some 5))

/-- Column with exactly 61 percent missing entries over 100 rows. -/
def xMiss61 : List Cell := List.replicate 61 none ++ List.replicate 39 (some (some 5))

/-- Column agreeing with the outcome on 98.6 percent of 1000 rows. -/
def xAgree986 : List Cell := List.replicate 986 (some (some 1)) ++ List.replicate 14 (some (some 0))

/-- Column agreeing with the outcome on 98.0 percent of 1000 rows. -/
def xAgree980 : List Cell := List.replicate 980 (some (some 1)) ++ List.replicate 20 (some (some 0))

/-- Outcome series of 1000 ones. -/
def yOnes1000 : List (Option ℚ) := List.replicate 1000 (some 1)

/-- Outcome series of 100 ones. -/
def yOnes100 : List (Option ℚ) := List.replicate 100 (some 1)

theorem is_name_leaky_x : is_name_leaky "x" = false := by decide

theorem near_two_block (a b : ℚ) (m n : ℕ) (h : 100 ≤ m + n) :
    near_equal_to_outcome
        (List.replicate m (some (some a)) ++ List.replicate n (some (some b)))
        (List.replicate (m + n) (some 1)) =
      decide ((985 : ℚ) / 1000 ≤ agreeMax (List.replicate m (a, 1) ++ List.replicate n (b, 1))) := by
  have hxn : (List.replicate m (some (some a)) ++ List.replicate n (some (some b))).map toNumeric =
      List.replicate m (some a) ++ List.replicate n (some b) := by
    simp only [List.map_append, List.map_replicate, toNumeric, Option.join,
      Option.some_bind, Option.none_bind, id_eq]
  have hbin : ensure_binary_num (List.replicate (m + n) (some 1)) =
      List.replicate m (some 1) ++ List.replicate n (some 1) := by
    simp only [ensure_binary_num, List.map_replicate, List.replicate_add]
    norm_num
  have hcommon : commonPairs
      (List.replicate m (some a) ++ List.replicate n (some b))
      (List.replicate m (some (1 : ℚ)) ++ List.replicate n (some 1)) =
      List.replicate m (a, 1) ++ List.replicate n (b, 1) := by
    simp only [commonPairs]
    rw [List.zip_append (by simp), List.zip_replicate, List.zip_replicate]
    simp only [List.filterMap_append, List.filterMap_replicate, min_self]
  have hcs : countSome (List.replicate m (some a) ++ List.replicate n (some b)) = m + n := by
    simp only [countSome, List.countP_append, List.countP_replicate]
    norm_num
  have hcsy : countSome (List.replicate (m + n) (some (1 : ℚ))) = m + n := by
    simp only [countSome, List.countP_replicate]
    norm_num
  unfold near_equal_to_outcome
  rw [hxn, hbin, hcommon, hcs, hcsy]
  have hg : (decide (m + n < 100) || decide (m + n < 100)) = false := by
    simp only [Bool.or_self, decide_eq_false_iff_not]
    omega
  have hlen : (List.replicate m ((a : ℚ), (1 : ℚ)) ++ List.replicate n (b, 1)).length = m + n := by
    simp
  rw [hg]
  simp only [Bool.false_eq_true, if_false, hlen]
  rw [if_neg (by omega)]

theorem near_miss_block (b : ℚ) (m n : ℕ) (h : 100 ≤ n) :
    near_equal_to_outcome
        (List.replicate m none ++ List.replicate n (some (some b)))
        (List.replicate (m + n) (some 1)) =
      decide ((985 : ℚ) / 1000 ≤ agreeMax (List.replicate n (b, 1))) := by
  have hxn : (List.replicate m (none : Cell) ++ List.replicate n (some (some b))).map toNumeric =
      List.replicate m none ++ List.replicate n (some b) := by
    simp only [List.map_append, List.map_replicate, toNumeric, Option.join,
      Option.some_bind, Option.none_bind, id_eq]
  have hbin : ensure_binary_num (List.replicate (m + n) (some 1)) =
      List.replicate m (some 1) ++ List.replicate n (some 1) := by
    simp only [ensure_binary_num, List.map_replicate, List.replicate_add]
    norm_num
  have hcommon : commonPairs
      (List.replicate m (none : Option ℚ) ++ List.replicate n (some b))
      (List.replicate m (some (1 : ℚ)) ++ List.replicate n (some 1)) =
      List.replicate n (b, 1) := by
    simp only [commonPairs]
    rw [List.zip_append (by simp), List.zip_replicate, List.zip_replicate]
    simp only [List.filterMap_append, List.filterMap_replicate, min_self]
    simp
  have hcs : countSome (List.replicate m (none : Option ℚ) ++ List.replicate n (some b)) = n := by
    simp only [countSome, List.countP_append, List.countP_replicate]
    norm_num
  have hcsy : countSome (List.replicate (m + n) (some (1 : ℚ))) = m + n := by
    simp only [countSome, List.countP_replicate]
    norm_num
  unfold near_equal_to_outcome
  rw [hxn, hbin, hcommon, hcs, hcsy]
  have hg : (decide (n < 100) || decide (m + n < 100)) = false := by
    simp only [Bool.or_eq_false_iff, decide_eq_false_iff_not]
    omega
  rw [hg]
  simp only [Bool.false_eq_true, if_false, List.length_replicate]
  rw [if_neg (by omega)]

theorem xAllOnes200_numeric : xAllOnes200.map toNumeric =
    List.replicate 100 (some (1 : ℚ)) ++ List.replicate 100 (some 1) := by
  rw [xAllOnes200, show (200 : ℕ) = 100 + 100 from rfl, List.replicate_add]
  simp only [List.map_append, List.map_replicate, toNumeric, Option.join, Option.some_bind, id_eq]

theorem xAllOnes200_count : countSome (xAllOnes200.map toNumeric) = 200 := by
  rw [xAllOnes200_numeric]
  simp only [countSome, List.countP_append, List.countP_replicate]
  norm_num

theorem yHalfMissing_count : countSome yHalfMissing = 100 := by
  simp only [countSome, yHalfMissing, List.countP_append, List.countP_replicate]
  norm_num

theorem xAllOnes200_near : near_equal_to_outcome xAllOnes200 yHalfMissing = false := by
  have hbin : ensure_binary_num yHalfMissing =
      List.replicate 100 (some 1) ++ List.replicate 100 (some 0) := by
    simp only [ensure_binary_num, yHalfMissing, List.map_append, List.map_replicate]
    norm_num
  have hcommon : commonPairs (xAllOnes200.map toNumeric) (ensure_binary_num yHalfMissing) =
      List.replicate 100 ((1 : ℚ), (1 : ℚ)) ++ List.replicate 100 (1, 0) := by
    rw [xAllOnes200_numeric, hbin]
    simp only [commonPairs]
    rw [List.zip_append (by simp), List.zip_replicate, List.zip_replicate]
    simp only [List.filterMap_append, List.filterMap_replicate, min_self]
  unfold near_equal_to_outcome
  rw [hcommon, xAllOnes200_count, yHalfMissing_count]
  norm_num [agreeMax, List.countP_append, List.countP_replicate, List.length_append,
    List.length_replicate]

theorem xAllOnes200_spec_near : spec_near xAllOnes200 yHalfMissing = true := by
  have hsb : specBin yHalfMissing =
      List.replicate 100 (some 1) ++ List.replicate 100 none := by
    simp only [specBin, yHalfMissing, List.map_append, List.map_replicate, Option.map_some,
      Option.map_none]
    norm_num
  have hcommon : commonPairs (xAllOnes200.map toNumeric) (specBin yHalfMissing) =
      List.replicate 100 ((1 : ℚ), (1 : ℚ)) := by
    rw [xAllOnes200_numeric, hsb]
    simp only [commonPairs]
    rw [List.zip_append (by simp), List.zip_replicate, List.zip_replicate]
    simp only [List.filterMap_append, List.filterMap_replicate, min_self]
    simp
  have hcnt : countSome (specBin yHalfMissing) = 100 := by
    rw [countSome_specBin, yHalfMissing_count]
  unfold spec_near
  rw [hcommon, xAllOnes200_count, hcnt]
  rw [if_pos (by omega)]
  norm_num [agreeMax, List.countP_replicate, List.length_replicate]

/-- C1 counterexample: on a column of 200 numeric ones paired with an outcome
series of 100 ones followed by 100 missing entries, the sanitizer keeps the
column while the staged reference procedure of the claim quarantines it as
near-equivalent to the outcome. The code's inner binary coercion turns each
missing outcome entry into 0 and keeps those rows in the comparison, so its
agreement fraction is 100 out of 200 rather than 100 out of 100. -/
theorem c1_counterexample :
    sanitize_verdict "x" xAllOnes200 yHalfMissing = Verdict.ok ∧
    spec_verdict "x" xAllOnes200 yHalfMissing = Verdict.near_equivalent_to_outcome := by
  have hmiss : missFrac xAllOnes200 = 0 := by
    simp only [missFrac, xAllOnes200, List.countP_replicate, List.length_replicate]
    norm_num
  constructor
  · unfold sanitize_verdict
    rw [is_name_leaky_x, hmiss, xAllOnes200_near]
    norm_num
  · unfold spec_verdict
    rw [is_name_leaky_x, hmiss, xAllOnes200_spec_near]
    norm_num

theorem xMiss60_verdict : sanitize_verdict "x" xMiss60 yOnes1000 = Verdict.ok := by
  have hmiss : missFrac xMiss60 = 3 / 5 := by
    simp only [missFrac, xMiss60, List.countP_append, List.countP_replicate,
      List.length_append, List.length_replicate]
    norm_num
  have hnear : near_equal_to_outcome xMiss60 yOnes1000 = false := by
    rw [xMiss60, yOnes1000, show (1000 : ℕ) = 600 + 400 from rfl,
      near_miss_block 5 600 400 (by omega)]
    norm_num [agreeMax, List.countP_replicate, List.length_replicate]
  unfold sanitize_verdict
  rw [is_name_leaky_x, hmiss, hnear]
  norm_num

theorem xMiss61_verdict : sanitize_verdict "x" xMiss61 yOnes100 = Verdict.missingness_exceeded := by
  have hmiss : missFrac xMiss61 = 61 / 100 := by
    simp only [missFrac, xMiss61, List.countP_append, List.countP_replicate,
      List.length_append, List.length_replicate]
    norm_num
  unfold sanitize_verdict
  rw [is_name_leaky_x, hmiss]
  norm_num

theorem xAgree986_verdict :
    sanitize_verdict "x" xAgree986 yOnes1000 = Verdict.near_equivalent_to_outcome := by
  have hmiss : missFrac xAgree986 = 0 := by
    simp only [missFrac, xAgree986, List.countP_append, List.countP_replicate,
      List.length_append, List.length_replicate]
    norm_num
  have hnear : near_equal_to_outcome xAgree986 yOnes1000 = true := by
    rw [xAgree986, yOnes1000, show (1000 : ℕ) = 986 + 14 from rfl,
      near_two_block 1 0 986 14 (by omega)]
    norm_num [agreeMax, List.countP_append, List.countP_replicate, List.length_append,
      List.length_replicate]
  unfold sanitize_verdict
  rw [is_name_leaky_x, hmiss, hnear]
  norm_num

theorem xAgree980_verdict : sanitize_verdict "x" xAgree980 yOnes1000 = Verdict.ok := by
  have hmiss : missFrac xAgree980 = 0 := by
    simp only [missFrac, xAgree980, List.countP_append, List.countP_replicate,
      List.length_append, List.length_replicate]
    norm_num
  have hnear : near_equal_to_outcome xAgree980 yOnes1000 = false := by
    rw [xAgree980, yOnes1000, show (1000 : ℕ) = 980 + 20 from rfl,
      near_two_block 1 0 980 20 (by omega)]
    norm_num [agreeMax, List.countP_append, List.countP_replicate, List.length_append,
      List.length_replicate]
  unfold sanitize_verdict
  rw [is_name_leaky_x, hmiss, hnear]
  norm_num

/-- C1 (amended): the sanitizer per-column verdict equals the staged reference
procedure of the claim whenever the outcome series has no missing entries; in
general the code differs only in the near-equivalence stage, where its binary
coercion maps a missing outcome entry to 0 and keeps that row in the
comparison instead of excluding it. The boundary behaviour is exactly as
claimed: a column with exactly 60 percent missing rows is kept and one with 61
percent is quarantined, a column agreeing with the outcome on 98.6 percent of
1000 rows is quarantined and one agreeing on 98.0 percent is kept. -/
theorem c1_verdict_staged_procedure :
    (∀ (c : String) (x : List Cell) (y : List (Option ℚ)),
      (∀ v ∈ y, v.isSome) → sanitize_verdict c x y = spec_verdict c x y) ∧
    sanitize_verdict "x" xMiss60 yOnes1000 = Verdict.ok ∧
    sanitize_verdict "x" xMiss61 yOnes100 = Verdict.missingness_exceeded ∧
    sanitize_verdict "x" xAgree986 yOnes1000 = Verdict.near_equivalent_to_outcome ∧
    sanitize_verdict "x" xAgree980 yOnes1000 = Verdict.ok :=
  ⟨sanitize_verdict_eq_spec, xMiss60_verdict, xMiss61_verdict, xAgree986_verdict,
    xAgree980_verdict⟩

/-- C1 witness: the amended equality applied to a concrete one-row table whose
outcome has no missing entry. -/
theorem c1_verdict_staged_procedure_witness :
    (∀ v ∈ ([some (1 : ℚ)] : List (Option ℚ)), v.isSome) ∧
    sanitize_verdict "col" [some (some 1)] [some 1] = spec_verdict "col" [some (some 1)] [some 1] :=
  ⟨by simp, c1_verdict_staged_procedure.1 "col" [some (some 1)] [some 1] (by simp)⟩

/-- Outcome series as the sanitizer main reads it from the table: the column
named by the outcome, an empty series when absent (sanitizer.py line 110).
The table models the dataframe after ensure_outcome_col, whose outcome column
is numeric, so the cell-to-number reading is the identity there. -/
def outcome_series (df : List (String × List Cell)) (outcome : String) : List (Option ℚ) :=
  ((df.lookup outcome).getD []).map toNumeric

/-- Names collected by the guard-list loop into the deny, missingness-heavy
and outcome-equivalent lists (sanitizer.py lines 119-136); the loop skips the
outcome column itself, and a column lands in a quarantine list exactly when
its verdict is not ok. -/
def quarantine_names (df : List (String × List Cell)) (outcome : String) : List String :=
  df.filterMap fun p =>
    if p.1 = outcome then none
    else if sanitize_verdict p.1 p.2 (outcome_series df outcome) ≠ Verdict.ok then some p.1
    else none

/-- Python sorted set over the union of the three quarantine lists
(sanitizer.py lines 139 and 145): the distinct names in lexicographic order. -/
def pySortedSet (l : List String) : List String := l.dedup.insertionSort (· ≤ ·)

/-- Embeds the construction of the quarantine table and the sanitized main
table (sanitizer.py lines 138-149): the quarantine table is the outcome
column followed by the quarantined columns in sorted order, and the main
table is the input table minus the quarantined columns, order and values
untouched. -/
def sanitize_tables (df : List (String × List Cell)) (outcome : String) :
    List (String × List Cell) × List (String × List Cell) :=
  ((df.filter fun p => decide (p.1 ∉ pySortedSet (quarantine_names df outcome))),
    (outcome, (df.lookup outcome).getD []) ::
      (pySortedSet (quarantine_names df outcome)).filterMap fun c =>
        (df.lookup c).map fun col => (c, col))

theorem mem_pySortedSet {a : String} {l : List String} : a ∈ pySortedSet l ↔ a ∈ l := by
  unfold pySortedSet
  rw [(List.perm_insertionSort _ _).mem_iff, List.mem_dedup]

theorem outcome_not_mem_quarantine (df : List (String × List Cell)) (outcome : String) :
    outcome ∉ quarantine_names df outcome := by
  intro h
  unfold quarantine_names at h
  rcases List.mem_filterMap.mp h with ⟨p, hp, hcond⟩
  by_cases he : p.1 = outcome
  · simp [he] at hcond
  · by_cases hv : sanitize_verdict p.1 p.2 (outcome_series df outcome) = Verdict.ok
    · simp [he, hv] at hcond
    · simp [he, hv] at hcond

theorem lookup_filter_keys {β : Type} (k : String) (l : List (String × β)) (bad : List String)
    (hk : k ∉ bad) :
    (l.filter fun p => decide (p.1 ∉ bad)).lookup k = l.lookup k := by
  induction l with
  | nil => rfl
  | cons a t ih =>
    obtain ⟨a1, a2⟩ := a
    by_cases ha : a1 ∈ bad
    · have hne : (k == a1) = false := by
        simp only [beq_eq_false_iff_ne]
        intro he
        exact hk (he ▸ ha)
      have hdrop : decide ((a1, a2).1 ∉ bad) = false := by simpa using ha
      rw [List.filter_cons, hdrop]
      simp only [Bool.false_eq_true, if_false]
      rw [ih, List.lookup_cons, hne]
    · have hkeep : decide ((a1, a2).1 ∉ bad) = true := by simpa using ha
      rw [List.filter_cons, hkeep]
      simp only [if_true]
      rw [List.lookup_cons, List.lookup_cons]
      by_cases hk2 : (k == a1) = true
      · rw [hk2]
      · have hk2' : (k == a1) = false := by simpa using hk2
        rw [hk2']
        exact ih

theorem nodup_assoc_value_eq {β : Type} {l : List (String × β)}
    (h : (l.map Prod.fst).Nodup) {c : String} {a b : β}
    (ha : (c, a) ∈ l) (hb : (c, b) ∈ l) : a = b := by
  induction l with
  | nil => cases ha
  | cons p t ih =>
    simp only [List.map_cons, List.nodup_cons] at h
    rcases List.mem_cons.mp ha with ha' | ha'
    · rcases List.mem_cons.mp hb with hb' | hb'
      · have hab : (c, a) = ((c, b) : String × β) := ha'.trans hb'.symm
        exact ((Prod.mk.injEq _ _ _ _).mp hab).2
      · exfalso
        have hc : c ∈ t.map Prod.fst := by
          simpa using List.mem_map_of_mem Prod.fst hb'
        apply h.1
        rw [show p.1 = c from by rw [← ha']]
        exact hc
    · rcases List.mem_cons.mp hb with hb' | hb'
      · exfalso
        have hc : c ∈ t.map Prod.fst := by
          simpa using List.mem_map_of_mem Prod.fst ha'
        apply h.1
        rw [show p.1 = c from by rw [← hb']]
        exact hc
      · exact ih h.2 ha' hb'

/-- C10: the configured outcome column is exempt from all three sanitizer
checks, so it is always retained with its values in the sanitized main table,
whatever its name or missingness, and it is placed as the first column of the
quarantine table; the main table is a sub-table of the input, and every
non-outcome column whose verdict is ok passes through to the main table with
its values unchanged. -/
theorem c10_outcome_exempt_and_passthrough (df : List (String × List Cell)) (outcome : String)
    (ycol : List Cell) (hlook : df.lookup outcome = some ycol)
    (hnodup : (df.map Prod.fst).Nodup) :
    (sanitize_tables df outcome).1.lookup outcome = some ycol ∧
    (sanitize_tables df outcome).2.head? = some (outcome, ycol) ∧
    (sanitize_tables df outcome).1.Sublist df ∧
    ∀ c col, (c, col) ∈ df → c ≠ outcome →
      sanitize_verdict c col (outcome_series df outcome) = Verdict.ok →
      (c, col) ∈ (sanitize_tables df outcome).1 := by
  refine ⟨?_, ?_, ?_, ?_⟩
  · unfold sanitize_tables
    rw [lookup_filter_keys outcome df _
      (fun hmem => outcome_not_mem_quarantine df outcome (mem_pySortedSet.mp hmem))]
    exact hlook
  · unfold sanitize_tables
    simp [hlook]
  · unfold sanitize_tables
    exact List.filter_sublist df
  · intro c col hmem hne hok
    unfold sanitize_tables
    apply List.mem_filter.mpr
    refine ⟨hmem, ?_⟩
    simp only [decide_eq_true_eq]
    intro hq
    have hq' : c ∈ quarantine_names df outcome := mem_pySortedSet.mp hq
    unfold quarantine_names at hq'
    rcases List.mem_filterMap.mp hq' with ⟨⟨p1, p2⟩, hp, hcond⟩
    by_cases he : p1 = outcome
    · simp [he] at hcond
    · by_cases hv : sanitize_verdict p1 p2 (outcome_series df outcome) = Verdict.ok
      · simp [he, hv] at hcond
      · simp [he, hv] at hcond
        rw [hcond] at hp hv
        have hval : p2 = col := nodup_assoc_value_eq hnodup hp hmem
        rw [hval] at hv
        exact hv hok

/-- Concrete table for the C10 witness: the outcome column is itself named by
a deny pattern and is entirely missing, yet is retained. -/
def dfW : List (String × List Cell) :=
  [("outcome", [none]), ("graduating_x", [some (some 1)]), ("keepme", [some (some 2)])]

/-- C10 witness: the theorem applied to the concrete table dfW. -/
theorem c10_outcome_exempt_and_passthrough_witness :
    dfW.lookup "outcome" = some [none] ∧ (dfW.map Prod.fst).Nodup ∧
    (sanitize_tables dfW "outcome").1.lookup "outcome" = some [none] :=
  ⟨by simp [dfW], by simp [dfW], (c10_outcome_exempt_and_passthrough dfW "outcome" [none]
    (by simp [dfW]) (by simp [dfW])).1⟩

/-- Semester-digit to name table of features.py line 71. -/
def TERM_DIGIT_TO_NAME (d : ℤ) : Option String :=
  if d = 1 then some "Spring" else if d = 5 then some "Summer"
  else if d = 8 then some "Fall" else none

/-- Semester-digit to month table of features.py line 72. -/
def TERM_DIGIT_TO_MONTH (d : ℤ) : Option ℕ :=
  if d = 1 then some 1 else if d = 5 then some 6 else if d = 8 then some 8 else none

/-- Calendar date at the day granularity the codec uses, standing for a pandas
Timestamp at midnight of that day. -/
structure Timestamp where
  year : ℤ
  month : ℕ
  day : ℕ
  deriving DecidableEq, Repr

/-- Validity domain of the pandas Timestamp constructor for the day dates the
codec builds: pandas timestamps are 64-bit nanosecond counts, so the
constructor raises OutOfBoundsDatetime for midnights before 1677-09-22 or
after 2262-04-11 (and raises for out-of-range years even earlier); inside the
span it succeeds for the well-formed month-day-1 dates the codec produces. -/
def pandasTimestampOk (y : ℤ) (m d : ℕ) : Prop :=
  (1677 < y ∨ (y = 1677 ∧ (10 ≤ m ∨ (m = 9 ∧ 22 ≤ d)))) ∧
  (y < 2262 ∨ (y = 2262 ∧ (m < 4 ∨ (m = 4 ∧ d ≤ 11))))

instance (y : ℤ) (m d : ℕ) : Decidable (pandasTimestampOk y m d) := by
  unfold pandasTimestampOk
  infer_instance

/-- Pandas Timestamp constructor with year, month and day: some date on
success, none when the library raises. -/
def mkTimestamp (y : ℤ) (m d : ℕ) : Option Timestamp :=
  if pandasTimestampOk y m d then some ⟨y, m, d⟩ else none

/-- Embeds decode_psu_term (features.py lines 74-85) on an integer or missing
term code. The outer Option models control flow: none is an exception escaping
the function (the pandas Timestamp constructor raising), some none is the
all-null result returned for missing input, and some (some r) is a normal
result. Python floor division and floor modulus agree with the division and
modulus of ℤ here because the modulus 10 is positive. -/
def decode_psu_term : Option ℤ → Option (Option (String × ℤ × Timestamp))
  | none => some none
  | some code =>
    let sem : ℤ := code % 10
    let base : ℤ := code / 10
    let year : ℤ := 2000 + (base - 200)
    let semName : String := (TERM_DIGIT_TO_NAME sem).getD ("Term" ++ toString sem)
    let month : ℕ := (TERM_DIGIT_TO_MONTH sem).getD 1
    match mkTimestamp year month 1 with
    | some ts => some (some (semName ++ " " ++ toString year, year, ts))
    | none => none

/-- C2 counterexample: decoding the integer term code 4628 computes Fall of
year 2262, where the pandas Timestamp constructor raises OutOfBoundsDatetime
(the nanosecond range ends on 2262-04-11), so decoding is not total over the
integer domain and the claim fails as stated. -/
theorem c2_counterexample : decode_psu_term (some 4628) = none := by
  simp only [decode_psu_term, mkTimestamp]
  rw [if_neg]
  unfold pandasTimestampOk
  decide

theorem decode_psu_term_eval (code : ℤ) (h1 : 1678 ≤ 1800 + code / 10)
    (h2 : 1800 + code / 10 ≤ 2261) :
    decode_psu_term (some code) = some (some
      ((TERM_DIGIT_TO_NAME (code % 10)).getD ("Term" ++ toString (code % 10)) ++ " " ++
          toString (2000 + (code / 10 - 200)),
        2000 + (code / 10 - 200),
        ⟨2000 + (code / 10 - 200), (TERM_DIGIT_TO_MONTH (code % 10)).getD 1, 1⟩)) := by
  have hmk : mkTimestamp (2000 + (code / 10 - 200)) ((TERM_DIGIT_TO_MONTH (code % 10)).getD 1) 1 =
      some ⟨2000 + (code / 10 - 200), (TERM_DIGIT_TO_MONTH (code % 10)).getD 1, 1⟩ := by
    unfold mkTimestamp
    rw [if_pos]
    exact ⟨Or.inl (by omega), Or.inl (by omega)⟩
  simp only [decode_psu_term]
  rw [hmk]

/-- C2 (amended): decoding a missing input returns the all-null result; for
every integer term code whose computed year, 1800 plus the code divided by 10,
lies between 1678 and 2261, decoding returns a label, a year and a timestamp
without raising, with unmapped semester digits yielding the synthetic
Term-digit label, as the concrete unmapped code 2090 shows; outside that year
span the pandas Timestamp constructor can raise. -/
theorem c2_decode_total_in_bounds :
    decode_psu_term none = some none ∧
    (∀ code : ℤ, 1678 ≤ 1800 + code / 10 → 1800 + code / 10 ≤ 2261 →
      ∃ label year ts, decode_psu_term (some code) = some (some (label, year, ts))) ∧
    decode_psu_term (some 2090) = some (some ("Term0 2009", 2009, ⟨2009, 1, 1⟩)) := by
  refine ⟨rfl, ?_, ?_⟩
  · intro code h1 h2
    exact ⟨_, _, _, decode_psu_term_eval code h1 h2⟩
  · rw [decode_psu_term_eval 2090 (by decide) (by decide)]
    rfl

/-- C2 witness: the in-bounds totality applied at the concrete term code 2088,
which decodes to Fall 2008. -/
theorem c2_decode_total_in_bounds_witness :
    (1678 ≤ 1800 + (2088 : ℤ) / 10) ∧ (1800 + (2088 : ℤ) / 10 ≤ 2261) ∧
    ∃ label year ts, decode_psu_term (some 2088) = some (some (label, year, ts)) :=
  ⟨by decide, by decide, c2_decode_total_in_bounds.2.1 2088 (by decide) (by decide)⟩

/-- Non-breaking space, removed by _make_merge_id. -/
def nbspChar : Char := ' '

/-- Zero-width space, removed by _make_merge_id. -/
def zwspChar : Char := '​'

/-- Dash variants removed by _make_merge_id (cli.py line 51): the unicode
hyphen block from U+2010 to U+2015 together with the ASCII hyphen. -/
def isDashVariant (c : Char) : Bool :=
  (decide (0x2010 ≤ c.toNat) && decide (c.toNat ≤ 0x2015)) || decide (c = '-')

/-- Character class kept by the final cleaning stage (cli.py line 52): the
capital letters A-Z and the digits 0-9. -/
def isAZ09 (c : Char) : Bool :=
  (decide (65 ≤ c.toNat) && decide (c.toNat ≤ 90)) ||
    (decide (48 ≤ c.toNat) && decide (c.toNat ≤ 57))

/-- Python str.strip on both ends; the stripped whitespace class is modelled
by the ASCII whitespace of Char.isWhitespace, which covers the raw ids in
scope (the non-breaking space is removed before the strip). -/
def stripBoth (l : List Char) : List Char :=
  ((l.dropWhile Char.isWhitespace).reverse.dropWhile Char.isWhitespace).reverse

/-- Cleaning stages of _make_merge_id (cli.py lines 49-52): remove NBSP and
zero-width space, strip surrounding whitespace, uppercase per character,
remove dash variants, and keep only A-Z and 0-9. -/
def cleanId (l : List Char) : List Char :=
  (((stripBoth (l.filter fun c => !(c == nbspChar || c == zwspChar))).map
    Char.toUpper).filter fun c => !isDashVariant c).filter isAZ09

/-- Embeds the digit-run extraction of cli.py line 53: re.search with a group
of five or more digits finds the leftmost position from which at least five
consecutive digits follow, and the greedy match is the whole consecutive digit
run from that position. -/
def extractDigitRun : List Char → Option (List Char)
  | [] => none
  | c :: cs =>
    if 5 ≤ ((c :: cs).takeWhile Char.isDigit).length then
      some ((c :: cs).takeWhile Char.isDigit)
    else extractDigitRun cs

/-- Embeds _make_merge_id (cli.py lines 48-54) on one raw id string: clean the
string, then use the extracted digit run when present and the cleaned string
otherwise (the fillna on line 54). -/
def make_merge_id (s : String) : String :=
  match extractDigitRun (cleanId s.data) with
  | some run => String.mk run
  | none => String.mk (cleanId s.data)

theorem mem_cleanId_isAZ09 {l : List Char} {c : Char} (hc : c ∈ cleanId l) :
    isAZ09 c = true := by
  unfold cleanId at hc
  exact List.of_mem_filter hc

theorem az09_not_special {c : Char} (h : isAZ09 c = true) :
    (c == nbspChar || c == zwspChar) = false := by
  simp only [Bool.or_eq_false_iff, beq_eq_false_iff_ne]
  constructor <;> intro he <;> subst he <;> revert h <;> decide

theorem az09_not_ws {c : Char} (h : isAZ09 c = true) : Char.isWhitespace c = false := by
  by_contra hw
  have hw' : Char.isWhitespace c = true := by
    cases hb : Char.isWhitespace c
    · exact absurd hb hw
    · rfl
  simp only [Char.isWhitespace, Bool.or_eq_true, decide_eq_true_eq] at hw'
  rcases hw' with ((h1 | h2) | h3) | h4 <;> subst_vars <;> revert h <;> decide

theorem az09_toUpper {c : Char} (h : isAZ09 c = true) : c.toUpper = c := by
  unfold isAZ09 at h
  simp only [Bool.or_eq_true, Bool.and_eq_true, decide_eq_true_eq] at h
  unfold Char.toUpper
  rw [if_neg]
  omega

theorem az09_not_dash {c : Char} (h : isAZ09 c = true) : isDashVariant c = false := by
  unfold isAZ09 at h
  simp only [Bool.or_eq_true, Bool.and_eq_true, decide_eq_true_eq] at h
  unfold isDashVariant
  simp only [Bool.or_eq_false_iff, Bool.and_eq_false_iff, decide_eq_false_iff_not]
  constructor
  · left
    omega
  · intro he
    subst he
    revert h
    decide

theorem az09_of_digit {c : Char} (h : Char.isDigit c = true) : isAZ09 c = true := by
  unfold Char.isDigit at h
  simp only [Bool.and_eq_true, decide_eq_true_eq] at h
  unfold isAZ09
  simp only [Bool.or_eq_true, Bool.and_eq_true, decide_eq_true_eq]
  right
  exact ⟨h.1, h.2⟩

theorem dropWhile_eq_self_of_all {p : Char → Bool} {l : List Char}
    (h : ∀ c ∈ l, p c = false) : l.dropWhile p = l := by
  cases l with
  | nil => rfl
  | cons a t =>
    rw [List.dropWhile_cons, h a (List.mem_cons_self a t)]
    simp

theorem stripBoth_eq_self {l : List Char} (h : ∀ c ∈ l, Char.isWhitespace c = false) :
    stripBoth l = l := by
  unfold stripBoth
  rw [dropWhile_eq_self_of_all h,
    dropWhile_eq_self_of_all (fun c hc => h c (List.mem_reverse.mp hc)),
    List.reverse_reverse]

theorem cleanId_eq_self {l : List Char} (h : ∀ c ∈ l, isAZ09 c = true) : cleanId l = l := by
  unfold cleanId
  have h1 : (l.filter fun c => !(c == nbspChar || c == zwspChar)) = l :=
    List.filter_eq_self.mpr fun c hc => by rw [az09_not_special (h c hc)]; rfl
  rw [h1, stripBoth_eq_self (fun c hc => az09_not_ws (h c hc))]
  have h3 : l.map Char.toUpper = l := by
    have h3' := (List.map_congr_left (fun c hc => az09_toUpper (h c hc)) :
      l.map Char.toUpper = l.map id)
    rw [h3', List.map_id]
  rw [h3]
  have h4 : (l.filter fun c => !isDashVariant c) = l :=
    List.filter_eq_self.mpr fun c hc => by rw [az09_not_dash (h c hc)]; rfl
  rw [h4]
  exact List.filter_eq_self.mpr h

theorem extract_some_digits {l r : List Char} (h : extractDigitRun l = some r) :
    5 ≤ r.length ∧ ∀ c ∈ r, Char.isDigit c = true := by
  induction l with
  | nil => cases h
  | cons a t ih =>
    unfold extractDigitRun at h
    by_cases h5 : 5 ≤ ((a :: t).takeWhile Char.isDigit).length
    · rw [if_pos h5] at h
      cases h
      exact ⟨h5, fun c hc => List.mem_takeWhile_imp hc⟩
    · rw [if_neg h5] at h
      exact ih h

theorem extract_all_digits {l : List Char} (hd : ∀ c ∈ l, Char.isDigit c = true)
    (hl : 5 ≤ l.length) : extractDigitRun l = some l := by
  cases l with
  | nil => simp at hl
  | cons a t =>
    unfold extractDigitRun
    rw [List.takeWhile_eq_self_iff.mpr hd, if_pos hl]

/-- C5: canonicalization of raw ids is idempotent: applying _make_merge_id to
its own output returns the output unchanged, for every input string. The
output is either a digit run of length at least five, which cleaning fixes
and extraction returns whole, or a cleaned string with no five-digit run,
which cleaning fixes and extraction again rejects. -/
theorem c5_canonicalize_idempotent (s : String) :
    make_merge_id (make_merge_id s) = make_merge_id s := by
  cases hex : extractDigitRun (cleanId s.data) with
  | some run =>
    have hprop := extract_some_digits hex
    have haz : ∀ c ∈ run, isAZ09 c = true := fun c hc => az09_of_digit (hprop.2 c hc)
    have hid : make_merge_id s = String.mk run := by
      unfold make_merge_id
      rw [hex]
    have h2 : make_merge_id (String.mk run) = String.mk run := by
      unfold make_merge_id
      rw [show (String.mk run).data = run from rfl, cleanId_eq_self haz,
        extract_all_digits hprop.2 hprop.1]
    rw [hid, h2]
  | none =>
    have haz : ∀ c ∈ cleanId s.data, isAZ09 c = true := fun c hc => mem_cleanId_isAZ09 hc
    have hid : make_merge_id s = String.mk (cleanId s.data) := by
      unfold make_merge_id
      rw [hex]
    have h2 : make_merge_id (String.mk (cleanId s.data)) = String.mk (cleanId s.data) := by
      unfold make_merge_id
      rw [show (String.mk (cleanId s.data)).data = cleanId s.data from rfl,
        cleanId_eq_self haz, hex]
    rw [hid, h2]

/-- C3: evaluation of the canonicalizer at the failing input 12345X67890. The
cleaned string ends with the five-digit run 67890, which the claim names as
the canonical id, but re.search finds the leftmost run of five or more digits
and the code returns 12345. -/
theorem c3_leftmost_run_not_trailing :
    make_merge_id "12345X67890" = "12345" ∧ make_merge_id "12345X67890" ≠ "67890" := by
  constructor <;> decide

/-- Uppercase a string per character; python str.upper over the ASCII inputs
these outcome fields hold, used to model case-insensitive matching. -/
def upperChars (l : List Char) : List Char := l.map Char.toUpper

/-- Drop leading whitespace, the starred whitespace class of the patterns. -/
def dropWs (l : List Char) : List Char := l.dropWhile Char.isWhitespace

/-- Consume a literal token at the head of the text. -/
def eatTok (tok : List Char) (l : List Char) : Option (List Char) :=
  if tok <+: l then some (l.drop tok.length) else none

/-- Consume at least one whitespace character then any further whitespace,
the plus-quantified whitespace class. -/
def eatWs1 : List Char → Option (List Char)
  | [] => none
  | c :: cs => if c.isWhitespace then some (dropWs cs) else none

/-- Consume a sequence of literal tokens, each preceded by optional
whitespace. -/
def chainToks : List (List Char) → List Char → Option (List Char)
  | [], l => some l
  | t :: ts, l =>
    match eatTok t (dropWs l) with
    | some r => chainToks ts r
    | none => none

/-- Matcher for the anchored never-enrolled pattern (features.py line 107):
optional whitespace, Never, mandatory whitespace, Enrolled, optional
whitespace, end; run on uppercased text for case-insensitivity. -/
def matchNever (l : List Char) : Bool :=
  match eatTok "NEVER".data (dropWs l) with
  | none => false
  | some l1 =>
    match eatWs1 l1 with
    | none => false
    | some l2 =>
      match eatTok "ENROLLED".data l2 with
      | some r => (dropWs r).isEmpty
      | none => false

/-- Matcher for the anchored first-attempt-pass pattern (features.py line
108): optional whitespace, the digit 1 with an optional st suffix, optional
whitespace, Attempt, equals and ABC separated by optional whitespace, end. -/
def matchFirstPass (l : List Char) : Bool :=
  match eatTok "1".data (dropWs l) with
  | none => false
  | some l1 =>
    match chainToks ["ATTEMPT".data, "=".data, "ABC".data]
        (if "ST".data <+: l1 then l1.drop 2 else l1) with
    | some r => (dropWs r).isEmpty
    | none => false

/-- Matcher for the anchored only-one-attempt pattern (features.py line 109):
Only, mandatory whitespace, 1, Attempt, equals, DFW. -/
def matchOnly1Dfw (l : List Char) : Bool :=
  match eatTok "ONLY".data (dropWs l) with
  | none => false
  | some l1 =>
    match eatWs1 l1 with
    | none => false
    | some l2 =>
      match eatTok "1".data l2 with
      | none => false
      | some l3 =>
        match chainToks ["ATTEMPT".data, "=".data, "DFW".data] l3 with
        | some r => (dropWs r).isEmpty
        | none => false

/-- Matcher for the anchored two-attempts-then-pass pattern (features.py line
110). -/
def matchTwoDfwAbc (l : List Char) : Bool :=
  match chainToks ["2".data, "ATTEMPTS".data, "(".data, "1ST".data, "=".data, "DFW".data,
      ",".data, "2ND".data, "=".data, "ABC".data, ")".data] l with
  | some r => (dropWs r).isEmpty
  | none => false

/-- Matcher for the anchored two-attempts-both-failed pattern (features.py
line 111). -/
def matchTwoBothDfw (l : List Char) : Bool :=
  match chainToks ["2".data, "ATTEMPTS".data, "(".data, "BOTH".data, "=".data, "DFW".data,
      ")".data] l with
  | some r => (dropWs r).isEmpty
  | none => false

/-- Suffix check of the fallback patterns (features.py lines 144-150): after
the digit group, optional whitespace, Attempt with optional plural s, and for
the pass fallback an ABC appearing somewhere later; the dot of that pattern
is modelled as matching any character, the cell texts being single-line. -/
def attemptSuffixOk (needAbc : Bool) (rest : List Char) : Bool :=
  match eatTok "ATTEMPT".data (dropWs rest) with
  | none => false
  | some r1 =>
    if needAbc then decide ("ABC".data <:+: (if "S".data <+: r1 then r1.drop 1 else r1))
    else true

/-- Leftmost digit run whose suffix matches the fallback pattern; re.search
scans left to right and the greedy group of one or more digits is the whole
consecutive run from the match position, which is the first digit of the
first qualifying run. -/
def findAttemptNum (needAbc : Bool) : List Char → Option (List Char)
  | [] => none
  | c :: cs =>
    if c.isDigit && attemptSuffixOk needAbc ((c :: cs).dropWhile Char.isDigit) then
      some ((c :: cs).takeWhile Char.isDigit)
    else findAttemptNum needAbc cs

/-- Digit string to number, python int on a group of digits. -/
def digitsToNat (l : List Char) : ℕ := l.foldl (fun acc c => 10 * acc + (c.toNat - 48)) 0

/-- Embeds parse_period_outcome (features.py lines 115-151): missing or blank
or never-enrolled text parses to no attempts; the four recognized phrasings
parse to their attempt counts and pass indices; unrecognized text falls back
to regex-extracted attempt counts; anything else is the safe default. The
case-insensitive flag of the patterns is modelled by uppercasing the stripped
text. -/
def parse_period_outcome : Option String → ℕ × Bool × Option ℕ
  | none => (0, false, none)
  | some s =>
    let txt := stripBoth s.data
    if txt.isEmpty then (0, false, none)
    else
      let u := upperChars txt
      if matchNever u then (0, false, none)
      else if matchFirstPass u then (1, true, some 1)
      else if matchOnly1Dfw u then (1, false, none)
      else if matchTwoDfwAbc u then (2, true, some 2)
      else if matchTwoBothDfw u then (2, false, none)
      else
        match findAttemptNum true u with
        | some ds => (digitsToNat ds, true, some (digitsToNat ds))
        | none =>
          match findAttemptNum false u with
          | some ds => (digitsToNat ds, false, none)
          | none => (0, false, none)

/-- Embeds outcome_is_pass (features.py lines 92-102): missing input is not a
pass; otherwise the uppercased text is checked for substrings, the C-minus
token refusing first, then PASS, A, B or C affirming. -/
def outcome_is_pass : Option String → Bool
  | none => false
  | some s =>
    if decide ("C-".data <:+: upperChars s.data) then false
    else decide ("PASS".data <:+: upperChars s.data) ||
      decide ("A".data <:+: upperChars s.data) ||
      decide ("B".data <:+: upperChars s.data) ||
      decide ("C".data <:+: upperChars s.data)

/-- Label of a never-passed course with a positive attempt count
(features.py line 166). -/
def noPassLabel (total : ℕ) : String :=
  "No pass after " ++ toString total ++ " attempt" ++ (if total ≠ 1 then "s" else "")

/-- Embeds _label_course_outcome (features.py lines 154-166): pass indices one
to three get literal wording, four or more collapse to the coarse label, and
without a pass the label reports the attempts tried or never-enrolled. -/
def _label_course_outcome (total : ℕ) (passOn : Option ℕ) : String :=
  match passOn with
  | some 1 => "Pass on 1st attempt"
  | some 2 => "Pass on 2nd attempt"
  | some 3 => "Pass on 3rd attempt"
  | some _ => "Requires more than three attempts"
  | none => if total = 0 then "Never enrolled" else noPassLabel total

/-- Branch logic of compute_attempts_ay_model (features.py lines 199-214) on
the chosen snapshot triple of attempts, pass flag and pass index: return the
snapshot's pass index when it passed, otherwise consult the free-text final
outcome for one more attempt, otherwise report the attempts tried. The pass
branch reads the snapshot's pass index through getD 0, which
parse_period_outcome always supplies when the pass flag is set. -/
def compute_core (chosen : ℕ × Bool × Option ℕ) (fin : Option String) :
    Option ℚ × String × ℕ :=
  if chosen.2.1 then
    (some ((chosen.2.2.getD 0 : ℕ) : ℚ),
      _label_course_outcome (chosen.2.2.getD 0) (some (chosen.2.2.getD 0)), chosen.2.2.getD 0)
  else if outcome_is_pass fin then
    (some ((chosen.1 + 1 : ℕ) : ℚ),
      _label_course_outcome (chosen.1 + 1) (some (chosen.1 + 1)), chosen.1 + 1)
  else if chosen.1 = 0 then (none, "Never enrolled", 0)
  else (none, _label_course_outcome chosen.1 none, chosen.1)

/-- Embeds compute_attempts_ay_model (features.py lines 170-214): parse both
cumulative snapshots, prefer AY2 when it shows attempts or a pass, then apply
the branch logic of compute_core to the chosen snapshot. -/
def compute_attempts_ay_model (ay1 ay2 fin : Option String) : Option ℚ × String × ℕ :=
  compute_core
    (if 0 < (parse_period_outcome ay2).1 || (parse_period_outcome ay2).2.1
      then parse_period_outcome ay2 else parse_period_outcome ay1) fin

theorem parse_shape (s : Option String) :
    ((parse_period_outcome s).2.1 = true ∧
      (parse_period_outcome s).2.2 = some (parse_period_outcome s).1) ∨
    ((parse_period_outcome s).2.1 = false ∧ (parse_period_outcome s).2.2 = none) := by
  cases s with
  | none => right; exact ⟨rfl, rfl⟩
  | some str =>
    simp only [parse_period_outcome]
    split_ifs
    · right; exact ⟨rfl, rfl⟩
    · right; exact ⟨rfl, rfl⟩
    · left; exact ⟨rfl, rfl⟩
    · right; exact ⟨rfl, rfl⟩
    · left; exact ⟨rfl, rfl⟩
    · right; exact ⟨rfl, rfl⟩
    · split
      · left; exact ⟨rfl, rfl⟩
      · split
        · right; exact ⟨rfl, rfl⟩
        · right; exact ⟨rfl, rfl⟩

theorem noPassLabel_head (n : ℕ) : (noPassLabel n).data.head? = some 'N' := rfl

theorem never_label_head : ("Never enrolled" : String).data.head? = some 'N' := rfl

theorem label_pass_head (total k : ℕ) :
    (_label_course_outcome total (some k)).data.head? = some 'P' ∨
      (_label_course_outcome total (some k)).data.head? = some 'R' := by
  rcases k with _ | _ | _ | _ | k
  · right; rfl
  · left; rfl
  · left; rfl
  · left; rfl
  · right; rfl

theorem pass_label_ne_noPass (total k n : ℕ) :
    _label_course_outcome total (some k) ≠ noPassLabel n := by
  intro h
  have h1 := congrArg (fun s => s.data.head?) h
  simp only at h1
  rcases label_pass_head total k with hp | hp <;>
    rw [hp, noPassLabel_head] at h1 <;> exact absurd h1 (by decide)

theorem pass_label_ne_never (total k : ℕ) :
    _label_course_outcome total (some k) ≠ "Never enrolled" := by
  intro h
  have h1 := congrArg (fun s => s.data.head?) h
  simp only at h1
  rcases label_pass_head total k with hp | hp <;>
    rw [hp, never_label_head] at h1 <;> exact absurd h1 (by decide)

theorem c8_core_invariant (chosen : ℕ × Bool × Option ℕ) (fin : Option String) :
    ((compute_core chosen fin).1 = none ↔
      ((compute_core chosen fin).2.1 = "Never enrolled" ∨
        ∃ n : ℕ, (compute_core chosen fin).2.1 = noPassLabel n)) ∧
    ∀ q : ℚ, (compute_core chosen fin).1 = some q →
      q ≤ (((compute_core chosen fin).2.2 : ℕ) : ℚ) := by
  unfold compute_core
  split_ifs with h1 h2 h3
  · refine ⟨⟨fun hn => absurd hn (by simp), fun hor => ?_⟩, fun q hq => ?_⟩
    · exfalso
      rcases hor with hnev | ⟨n, hno⟩
      · exact pass_label_ne_never _ _ hnev
      · exact pass_label_ne_noPass _ _ _ hno
    · have hq' : q = ((chosen.2.2.getD 0 : ℕ) : ℚ) := by simpa using hq.symm
      rw [hq']
  · refine ⟨⟨fun hn => absurd hn (by simp), fun hor => ?_⟩, fun q hq => ?_⟩
    · exfalso
      rcases hor with hnev | ⟨n, hno⟩
      · exact pass_label_ne_never _ _ hnev
      · exact pass_label_ne_noPass _ _ _ hno
    · have hq' : q = ((chosen.1 + 1 : ℕ) : ℚ) := by simpa using hq.symm
      rw [hq']
  · exact ⟨⟨fun _ => Or.inl rfl, fun _ => rfl⟩, fun q hq => absurd hq (by simp)⟩
  · refine ⟨⟨fun _ => Or.inr ⟨chosen.1, ?_⟩, fun _ => rfl⟩, fun q hq => absurd hq (by simp)⟩
    simp only [_label_course_outcome]
    rw [if_neg h3]

/-- C8: for every combination of AY1, AY2 and final-outcome text, the course
result satisfies the data-model invariant: attempts_to_pass is null exactly
when the label is Never enrolled or a No-pass-after-N label, and whenever
attempts_to_pass is present the total attempt count is at least as large. -/
theorem c8_course_outcome_invariant (ay1 ay2 fin : Option String) :
    ((compute_attempts_ay_model ay1 ay2 fin).1 = none ↔
      ((compute_attempts_ay_model ay1 ay2 fin).2.1 = "Never enrolled" ∨
        ∃ n : ℕ, (compute_attempts_ay_model ay1 ay2 fin).2.1 = noPassLabel n)) ∧
    ∀ q : ℚ, (compute_attempts_ay_model ay1 ay2 fin).1 = some q →
      q ≤ (((compute_attempts_ay_model ay1 ay2 fin).2.2 : ℕ) : ℚ) := by
  unfold compute_attempts_ay_model
  exact c8_core_invariant _ fin

/-- C8 witness: the invariant applied at a concrete first-attempt pass. -/
theorem c8_course_outcome_invariant_witness :
    compute_attempts_ay_model (some "1st Attempt=ABC") none none =
      (some 1, "Pass on 1st attempt", 1) ∧
    (1 : ℚ) ≤ (((compute_attempts_ay_model (some "1st Attempt=ABC") none none).2.2 : ℕ) : ℚ) :=
  ⟨by decide, (c8_course_outcome_invariant (some "1st Attempt=ABC") none none).2 1 (by decide)⟩

/-- C4: AY2's parsed snapshot supersedes AY1's exactly when AY2 shows at least
one attempt or a pass: in that case the result does not depend on AY1 at all,
and otherwise the result is as if AY2 were missing; when the chosen snapshot
shows a pass with index k, attempts_to_pass and total_attempts both equal k;
and the two concrete examples of the claim evaluate as stated. -/
theorem c4_cumulative_snapshot_model :
    (∀ ay1 ay1' ay2 fin : Option String,
      (0 < (parse_period_outcome ay2).1 ∨ (parse_period_outcome ay2).2.1 = true) →
      compute_attempts_ay_model ay1 ay2 fin = compute_attempts_ay_model ay1' ay2 fin) ∧
    (∀ ay1 ay2 fin : Option String,
      ¬(0 < (parse_period_outcome ay2).1 ∨ (parse_period_outcome ay2).2.1 = true) →
      compute_attempts_ay_model ay1 ay2 fin = compute_attempts_ay_model ay1 none fin) ∧
    (∀ ay1 ay2 fin : Option String, ∀ k : ℕ,
      (if 0 < (parse_period_outcome ay2).1 || (parse_period_outcome ay2).2.1
        then parse_period_outcome ay2 else parse_period_outcome ay1).2.1 = true →
      (if 0 < (parse_period_outcome ay2).1 || (parse_period_outcome ay2).2.1
        then parse_period_outcome ay2 else parse_period_outcome ay1).2.2 = some k →
      (compute_attempts_ay_model ay1 ay2 fin).1 = some (k : ℚ) ∧
        (compute_attempts_ay_model ay1 ay2 fin).2.2 = k) ∧
    compute_attempts_ay_model (some "1st Attempt=ABC") none none =
      (some 1, "Pass on 1st attempt", 1) ∧
    compute_attempts_ay_model (some "Only 1 Attempt=DFW")
      (some "2 Attempts (1st=DFW, 2nd=ABC)") none = (some 2, "Pass on 2nd attempt", 2) := by
  refine ⟨?_, ?_, ?_, by decide, by decide⟩
  · intro ay1 ay1' ay2 fin h
    have hb : (0 < (parse_period_outcome ay2).1 || (parse_period_outcome ay2).2.1) = true := by
      rcases h with h | h
      · simp [h]
      · simp [h]
    simp [compute_attempts_ay_model, hb]
  · intro ay1 ay2 fin h
    push_neg at h
    have hb : (0 < (parse_period_outcome ay2).1 || (parse_period_outcome ay2).2.1) = false := by
      simp only [Bool.or_eq_false_iff, decide_eq_false_iff_not]
      exact ⟨by omega, by simpa using h.2⟩
    have hb0 : (0 < (parse_period_outcome none).1 || (parse_period_outcome none).2.1) = false := by
      decide
    simp [compute_attempts_ay_model, hb, hb0]
  · intro ay1 ay2 fin k hpass hidx
    simp only [compute_attempts_ay_model, compute_core, hpass, if_true, hidx, Option.getD_some]
    constructor <;> simp

/-- C4 witness: the pass-index property applied to the second concrete
example, whose chosen snapshot is AY2 with pass index two. -/
theorem c4_cumulative_snapshot_model_witness :
    (compute_attempts_ay_model (some "Only 1 Attempt=DFW")
      (some "2 Attempts (1st=DFW, 2nd=ABC)") none).1 = some ((2 : ℕ) : ℚ) ∧
    (compute_attempts_ay_model (some "Only 1 Attempt=DFW")
      (some "2 Attempts (1st=DFW, 2nd=ABC)") none).2.2 = 2 :=
  c4_cumulative_snapshot_model.2.2.1 (some "Only 1 Attempt=DFW")
    (some "2 Attempts (1st=DFW, 2nd=ABC)") none 2 (by decide) (by decide)

/-- C9: the pass heuristic classifies a non-missing final outcome by
substring: false whenever the uppercased text contains the C-minus token,
otherwise true exactly when it contains PASS, A, B or C; in particular the
non-pass text FAIL is classified as a pass because it contains the letter A. -/
theorem c9_outcome_is_pass_substring :
    (∀ s : String,
      outcome_is_pass (some s) = true ↔
        (¬ ("C-".data <:+: upperChars s.data) ∧
          ("PASS".data <:+: upperChars s.data ∨ "A".data <:+: upperChars s.data ∨
            "B".data <:+: upperChars s.data ∨ "C".data <:+: upperChars s.data))) ∧
    outcome_is_pass (some "FAIL") = true := by
  constructor
  · intro s
    unfold outcome_is_pass
    by_cases h : "C-".data <:+: upperChars s.data
    · simp [h]
    · simp [h, or_assoc]
  · decide

/-- C9 witness: the substring characterization applied at the concrete input
FAIL, which is affirmed because it contains the letter A. -/
theorem c9_outcome_is_pass_witness :
    ¬ ("C-".data <:+: upperChars "FAIL".data) ∧
      ("PASS".data <:+: upperChars "FAIL".data ∨ "A".data <:+: upperChars "FAIL".data ∨
        "B".data <:+: upperChars "FAIL".data ∨ "C".data <:+: upperChars "FAIL".data) :=
  (c9_outcome_is_pass_substring.1 "FAIL").mp (by decide)

/-- Mean of a list of rationals, numpy mean. -/
def mean (l : List ℚ) : ℚ := l.sum / ((l.length : ℕ) : ℚ)

/-- Embeds the slope helper of build_term_gpa_features (gpa_features.py lines
60-69): ordinary least squares slope of y on x, NaN (none here) when there
are fewer than two points or the centered sum of squares is not positive. The
two numpy arrays pair up positionally. -/
def slope (x y : List ℚ) : Option ℚ :=
  if x.length < 2 then none
  else if 0 < (x.map fun a => (a - mean x) ^ 2).sum then
    some ((((x.zip y).map fun p => (p.1 - mean x) * (p.2 - mean y)).sum) /
      ((x.map fun a => (a - mean x) ^ 2).sum))
  else none

/-- Per-student trajectory slope as the groupby apply on gpa_features.py lines
87-89 computes it: the slope of the term-gpa column on the term-index column
of the student's rows. -/
def gpa_trend_slope (d : List (ℚ × ℚ)) : Option ℚ :=
  slope (d.map Prod.fst) (d.map Prod.snd)

/-- Covariance of term index and term gpa over a student's rows, with the 1/n
factor, the numerator of the specification's closed form for the slope. -/
def covXY (d : List (ℚ × ℚ)) : ℚ :=
  ((d.map fun p => (p.1 - mean (d.map Prod.fst)) * (p.2 - mean (d.map Prod.snd))).sum) /
    ((d.length : ℕ) : ℚ)

/-- Variance of the term index over a student's rows, with the 1/n factor,
the denominator of the specification's closed form for the slope. -/
def varX (d : List (ℚ × ℚ)) : ℚ :=
  ((d.map fun p => (p.1 - mean (d.map Prod.fst)) ^ 2).sum) / ((d.length : ℕ) : ℚ)

theorem slope_den_eq (d : List (ℚ × ℚ)) :
    ((d.map Prod.fst).map fun a => (a - mean (d.map Prod.fst)) ^ 2).sum =
      varX d * ((d.length : ℕ) : ℚ) := by
  unfold varX
  rw [List.map_map]
  rcases eq_or_ne ((d.length : ℕ) : ℚ) 0 with h0 | h0
  · have hd : d = [] := List.length_eq_zero.mp (Nat.cast_eq_zero.mp h0)
    subst hd
    simp
  · rw [div_mul_cancel₀ _ h0]
    rfl

theorem slope_num_eq (d : List (ℚ × ℚ)) :
    (((d.map Prod.fst).zip (d.map Prod.snd)).map fun p =>
        (p.1 - mean (d.map Prod.fst)) * (p.2 - mean (d.map Prod.snd))).sum =
      covXY d * ((d.length : ℕ) : ℚ) := by
  unfold covXY
  rw [List.zip_map', List.map_map]
  rcases eq_or_ne ((d.length : ℕ) : ℚ) 0 with h0 | h0
  · have hd : d = [] := List.length_eq_zero.mp (Nat.cast_eq_zero.mp h0)
    subst hd
    simp
  · rw [div_mul_cancel₀ _ h0]
    rfl

/-- C7: the per-student trajectory slope is the ordinary least squares slope,
the ratio of the covariance of term gpa with term index to the variance of
term index; it is null with fewer than two rows and null when that variance
is zero; and a student with exactly the rows of term index 1 at gpa 3.0 and
term index 2 at gpa 3.5 gets slope exactly one half. -/
theorem c7_trajectory_slope_ols :
    (∀ d : List (ℚ × ℚ), d.length < 2 → gpa_trend_slope d = none) ∧
    (∀ d : List (ℚ × ℚ), varX d = 0 → gpa_trend_slope d = none) ∧
    (∀ d : List (ℚ × ℚ), 2 ≤ d.length → varX d ≠ 0 →
      gpa_trend_slope d = some (covXY d / varX d)) ∧
    gpa_trend_slope [(1, 3), (2, 7 / 2)] = some (1 / 2) := by
  have hlen : ∀ d : List (ℚ × ℚ), (d.map Prod.fst).length = d.length := by
    intro d
    rw [List.length_map]
  refine ⟨?_, ?_, ?_, ?_⟩
  · intro d hd
    unfold gpa_trend_slope slope
    rw [if_pos]
    rw [hlen]
    exact hd
  · intro d hv
    rcases lt_or_le d.length 2 with hlt | hge
    · unfold gpa_trend_slope slope
      rw [if_pos]
      rw [hlen]
      exact hlt
    · unfold gpa_trend_slope slope
      rw [if_neg (by rw [hlen]; omega), if_neg]
      rw [slope_den_eq, hv]
      simp
  · intro d h2 hv
    have hn : ((d.length : ℕ) : ℚ) ≠ 0 := by
      simp only [ne_eq, Nat.cast_eq_zero]
      omega
    have hden0 : (0 : ℚ) ≤ ((d.map Prod.fst).map fun a => (a - mean (d.map Prod.fst)) ^ 2).sum := by
      apply List.sum_nonneg
      intro a ha
      rcases List.mem_map.mp ha with ⟨b, _, rfl⟩
      positivity
    have hdenne : ((d.map Prod.fst).map fun a => (a - mean (d.map Prod.fst)) ^ 2).sum ≠ 0 := by
      rw [slope_den_eq]
      exact mul_ne_zero hv hn
    have hdenpos : (0 : ℚ) < ((d.map Prod.fst).map fun a => (a - mean (d.map Prod.fst)) ^ 2).sum :=
      lt_of_le_of_ne hden0 (Ne.symm hdenne)
    unfold gpa_trend_slope slope
    rw [if_neg (by rw [hlen]; omega), if_pos hdenpos]
    congr 1
    rw [slope_num_eq, slope_den_eq, mul_div_mul_right _ _ hn]
  · norm_num [gpa_trend_slope, slope, mean]

/-- C7 witness: the closed form applied to the student with the two concrete
rows of the claim. -/
theorem c7_trajectory_slope_ols_witness :
    2 ≤ ([((1 : ℚ), (3 : ℚ)), (2, 7 / 2)]).length ∧
    varX [((1 : ℚ), (3 : ℚ)), (2, 7 / 2)] ≠ 0 ∧
    gpa_trend_slope [((1 : ℚ), (3 : ℚ)), (2, 7 / 2)] =
      some (covXY [((1 : ℚ), (3 : ℚ)), (2, 7 / 2)] / varX [((1 : ℚ), (3 : ℚ)), (2, 7 / 2)]) :=
  ⟨by norm_num, by norm_num [varX, mean],
    c7_trajectory_slope_ols.2.2.1 _ (by norm_num) (by norm_num [varX, mean])⟩

/-- Canonical chronological order of the 25 term slots (gpa_features.py lines
10-20, repeated in cli.py lines 98-108). -/
def SEM_COLS_ORDERED : List String :=
  ["1st_fall", "1st_spring", "1st_summer",
    "2nd_fall", "2nd_spring", "2nd_summer",
    "3rd_fall", "3rd_spring", "3rd_summer",
    "4th_fall", "4th_spring", "4th_summer",
    "5th_fall", "5th_spring", "5th_summer",
    "6th_fall", "6th_spring", "6th_summer",
    "7th_fall", "7th_spring", "7th_summer",
    "8th_fall", "8th_spring", "8th_summer",
    "9th_fall"]

/-- Input GPA grid for the reshaper: the standardized sheet's column names
and one row per student, holding the student id and the numeric-coerced cells
keyed by column name (a key absent from a row reads as a missing cell). -/
structure GpaSheet where
  cols : List String
  rows : List (String × List (String × Option ℚ))

/-- Sem columns present on the sheet, in canonical order (gpa_features.py
line 23). -/
def gpaCols (sh : GpaSheet) : List String :=
  SEM_COLS_ORDERED.filter fun c => sh.cols.contains c

/-- One row of the long table (gpa_features.py lines 44-55, column selection
of line 107); the summer flags mirror the 0-or-1 integer columns. -/
structure TermRow where
  random_id : String
  term_index : ℕ
  term_slot : String
  term_gpa : ℚ
  is_summer : ℕ
  is_regular : ℕ
  deriving DecidableEq, Repr

/-- Rank map of gpa_features.py lines 47-48: the order map enumerates the
present sem columns in canonical order, so a slot maps to its 1-based
position among the present columns. -/
def orderMap (sh : GpaSheet) (slot : String) : Option ℕ :=
  ((gpaCols sh).indexOf? slot).map (· + 1)

/-- Melt of gpa_features.py line 44: one output triple per present sem column
per student row whose cell holds a number; missing cells are dropped. -/
def meltRows (sh : GpaSheet) : List (String × String × ℚ) :=
  (gpaCols sh).flatMap fun slot =>
    sh.rows.filterMap fun r =>
      match (r.2.lookup slot).join with
      | some g => some (r.1, slot, g)
      | none => none

/-- Rows of the long table before the final sort (gpa_features.py lines
44-52): melt and drop missing values, attach the term index through the order
map (always defined on the melted slots, getD standing for the astype int)
and the summer flags. -/
def longUnsorted (sh : GpaSheet) : List TermRow :=
  (meltRows sh).map fun m =>
    { random_id := m.1
      term_index := (orderMap sh m.2.1).getD 0
      term_slot := m.2.1
      term_gpa := m.2.2
      is_summer := if "summer".data <:+: m.2.1.data then 1 else 0
      is_regular := 1 - (if "summer".data <:+: m.2.1.data then 1 else 0) : TermRow }

/-- Stable ascending comparison by student id then term index, the
sort_values key of gpa_features.py line 55. -/
def pandasRowLe (a b : TermRow) : Bool :=
  decide (a.random_id < b.random_id) ||
    (decide (a.random_id = b.random_id) && decide (a.term_index ≤ b.term_index))

/-- Long-table construction of build_term_gpa_features (gpa_features.py lines
42-55, column selection of line 107): the melted rows sorted stably by
student and term index. -/
def buildTermGpaLong (sh : GpaSheet) : List TermRow :=
  (longUnsorted sh).mergeSort pandasRowLe

theorem indexOf?_get {l : List String} {a : String} {i : ℕ} (h : l.indexOf? a = some i) :
    l.get? i = some a := by
  induction l generalizing i with
  | nil => cases h
  | cons b t ih =>
    rw [List.indexOf?_cons] at h
    by_cases hb : (b == a) = true
    · rw [if_pos hb] at h
      cases h
      simpa using beq_iff_eq.mp hb
    · rw [if_neg hb] at h
      rcases Option.map_eq_some'.mp h with ⟨j, hj, hji⟩
      rw [← hji]
      simpa using ih hj

theorem indexOf?_isSome_of_mem {l : List String} {a : String} (h : a ∈ l) :
    ∃ i, l.indexOf? a = some i := by
  induction l with
  | nil => cases h
  | cons b t ih =>
    rw [List.indexOf?_cons]
    by_cases hb : (b == a) = true
    · exact ⟨0, by rw [if_pos hb]⟩
    · have h' : a ∈ t := by
        rcases List.mem_cons.mp h with rfl | h'
        · simp at hb
        · exact h'
      rcases ih h' with ⟨j, hj⟩
      exact ⟨j + 1, by rw [if_neg hb, hj]; rfl⟩

theorem mem_meltRows_slot {sh : GpaSheet} {m : String × String × ℚ} (h : m ∈ meltRows sh) :
    m.2.1 ∈ gpaCols sh := by
  unfold meltRows at h
  rcases List.mem_flatMap.mp h with ⟨slot, hslot, hm⟩
  rcases List.mem_filterMap.mp hm with ⟨r, hr, hres⟩
  split at hres
  · cases hres
    exact hslot
  · cases hres

theorem mem_long_structure {sh : GpaSheet} {r : TermRow} (h : r ∈ buildTermGpaLong sh) :
    r.term_slot ∈ gpaCols sh ∧ r.term_index = (orderMap sh r.term_slot).getD 0 := by
  unfold buildTermGpaLong longUnsorted at h
  rw [List.mem_mergeSort] at h
  rcases List.mem_map.mp h with ⟨m, hm, hrm⟩
  rw [← hrm]
  exact ⟨mem_meltRows_slot hm, rfl⟩

/-- C6 counterexample: a grid whose sheet has only the 1st_fall and 2nd_fall
sem columns gives the 2nd_fall row term index 2, its rank among the present
columns, while the canonical chronological ordering of the 25 slots ranks
2nd_fall fourth, so the claim fails as stated. -/
theorem c6_counterexample :
    buildTermGpaLong
        ⟨["random_id", "1st_term", "1st_fall", "2nd_fall"],
          [("S1", [("1st_fall", none), ("2nd_fall", some 3)])]⟩ =
      [⟨"S1", 2, "2nd_fall", 3, 0, 1⟩] ∧
    SEM_COLS_ORDERED.get? 3 = some "2nd_fall" ∧ (2 : ℕ) ≠ 3 + 1 := by
  refine ⟨?_, by decide, by decide⟩
  unfold buildTermGpaLong
  have h1 : longUnsorted
      ⟨["random_id", "1st_term", "1st_fall", "2nd_fall"],
        [("S1", [("1st_fall", none), ("2nd_fall", some 3)])]⟩ =
      [⟨"S1", 2, "2nd_fall", 3, 0, 1⟩] := by decide
  rw [h1, List.mergeSort_singleton]

/-- C6 (amended): every row of the long table carries term_index equal to the
1-based rank of its term slot among the sem columns present on the sheet,
taken in canonical chronological order; when the sheet carries all 25 term
slots this is exactly the canonical 25-slot rank, as the claim states; and in
every case the same term slot always receives the same term index. -/
theorem c6_term_index_rank :
    (∀ sh : GpaSheet, ∀ r ∈ buildTermGpaLong sh, ∃ i : ℕ,
      r.term_index = i + 1 ∧ (gpaCols sh).get? i = some r.term_slot) ∧
    (∀ sh : GpaSheet, (∀ c ∈ SEM_COLS_ORDERED, sh.cols.contains c = true) →
      ∀ r ∈ buildTermGpaLong sh, ∃ i : ℕ,
        r.term_index = i + 1 ∧ SEM_COLS_ORDERED.get? i = some r.term_slot) ∧
    (∀ sh : GpaSheet, ∀ r ∈ buildTermGpaLong sh, ∀ r' ∈ buildTermGpaLong sh,
      r.term_slot = r'.term_slot → r.term_index = r'.term_index) := by
  have hmain : ∀ sh : GpaSheet, ∀ r ∈ buildTermGpaLong sh, ∃ i : ℕ,
      r.term_index = i + 1 ∧ (gpaCols sh).get? i = some r.term_slot := by
    intro sh r hr
    obtain ⟨hmem, hidx⟩ := mem_long_structure hr
    rcases indexOf?_isSome_of_mem hmem with ⟨i, hi⟩
    refine ⟨i, ?_, indexOf?_get hi⟩
    rw [hidx]
    unfold orderMap
    rw [hi]
    rfl
  refine ⟨hmain, ?_, ?_⟩
  · intro sh hall r hr
    have hcols : gpaCols sh = SEM_COLS_ORDERED := by
      unfold gpaCols
      exact List.filter_eq_self.mpr hall
    rcases hmain sh r hr with ⟨i, h1, h2⟩
    rw [hcols] at h2
    exact ⟨i, h1, h2⟩
  · intro sh r hr r' hr' hslot
    obtain ⟨_, hidx⟩ := mem_long_structure hr
    obtain ⟨_, hidx'⟩ := mem_long_structure hr'
    rw [hidx, hidx', hslot]

/-- Full sheet used by the C6 witness: all 25 sem columns present and one
student with a single summer gpa. -/
def sh25 : GpaSheet :=
  ⟨"random_id" :: "1st_term" :: SEM_COLS_ORDERED, [("S1", [("1st_summer", some 3)])]⟩

/-- C6 witness: the all-slots-present case applied to the concrete sheet
sh25, whose single long row is the 1st_summer term at canonical rank 3. -/
theorem c6_term_index_rank_witness :
    (∀ c ∈ SEM_COLS_ORDERED, sh25.cols.contains c = true) ∧
    (⟨"S1", 3, "1st_summer", 3, 1, 0⟩ : TermRow) ∈ buildTermGpaLong sh25 ∧
    ∃ i : ℕ, (⟨"S1", 3, "1st_summer", 3, 1, 0⟩ : TermRow).term_index = i + 1 ∧
      SEM_COLS_ORDERED.get? i = some (⟨"S1", 3, "1st_summer", 3, 1, 0⟩ : TermRow).term_slot := by
  have hmem : (⟨"S1", 3, "1st_summer", 3, 1, 0⟩ : TermRow) ∈ buildTermGpaLong sh25 := by
    have h1 : longUnsorted sh25 = [⟨"S1", 3, "1st_summer", 3, 1, 0⟩] := by decide
    unfold buildTermGpaLong
    rw [h1, List.mergeSort_singleton]
    exact List.mem_singleton.mpr rfl
  exact ⟨by decide, hmem, c6_term_index_rank.2.1 sh25 (by decide) _ hmem⟩

end Etm
